import Mathlib

/-!
# PurpleSDL: bootstrap, data pipeline, save reconstruction and session loop

A shallow embedding of `src/Main.cpp` and `src/TextRenderer.cpp`.

* A `std::string` is a `List Char`; one list element is one C++ `char`.
* Collaborators whose code is not in the two source files (the table builders,
  `Player`, `OverworldGui`, SDL itself) appear as parameters.
* Calls that leave the process (SDL, `std::cerr`) are recorded in a log of
  `Action`s, in program order.
-/

namespace PurpleSDL

/-- A `std::string`: a sequence of `char`s. -/
abbrev Str := List Char

/-! ## Fresh-game name handling (`Main.cpp` 243-254) -/

/-- The call `name.erase(std::remove(name.begin(), name.end(), ','), name.end())`:
every comma is dropped, the other characters keep their order. -/
def eraseCommas (name : Str) : Str :=
  name.filter (fun c => c != ',')

/-- The call `name.substr(0, 10)`. -/
def substr0_10 (name : Str) : Str :=
  name.take 10

/-- Lines 247-254: the value of `player->name` after the prompt, given the name
the `Player` was constructed with (`initial`) and the prompt's answer. -/
def freshGameName (initial : Str) (answer : Str) : Str :=
  if !answer.isEmpty then
    let name := eraseCommas answer
    if name.isEmpty then
      "Purple".toList
    else
      if name.length < 11 then name else substr0_10 name
  else
    initial

/-- Lines 243-254 with the constructor call `new Player("Purple")`: the player
starts out named `"Purple"`. -/
def storedName (answer : Str) : Str :=
  freshGameName "Purple".toList answer

/-! ## Save parsing (`Main.cpp` 191-226) -/

/-- The state of `std::ifstream saveFile`: the characters not yet extracted and
the two state bits that `good()` looks at. -/
structure IStream where
  unread : Str
  eofbit : Bool
  failbit : Bool
deriving DecidableEq

/-- The member `good()`: no state bit is set. -/
def IStream.good (s : IStream) : Bool :=
  !s.eofbit && !s.failbit

/-- The stream right after `std::ifstream saveFile("save.txt")` opened an
existing file holding `content`. -/
def openSave (content : Str) : IStream :=
  ⟨content, false, false⟩

/-- The extraction loop of `std::getline`: characters are moved to the line
until a newline is extracted (and dropped) or the input ends. The result is
the line, the characters left in the stream, and whether the newline was met. -/
def extractLine : Str → Str × Str × Bool
  | [] => ([], [], false)
  | c :: cs =>
    if c = '\n' then ([], cs, true)
    else
      let r := extractLine cs
      (c :: r.1, r.2.1, r.2.2)

/-- The call `std::getline(saveFile, str)`. On a stream that is not good the
sentry sets `failbit` and `str` keeps its value. Otherwise `str` is erased and
refilled; reaching the end of input sets `eofbit`, and extracting nothing at
all sets `failbit`. The save stream has the default exception mask, so nothing
is thrown. -/
def getline (s : IStream) (str : Str) : IStream × Str :=
  if s.good then
    let r := extractLine s.unread
    if r.2.2 then (⟨r.2.1, s.eofbit, s.failbit⟩, r.1)
    else (⟨r.2.1, true, r.1.isEmpty⟩, r.1)
  else
    (⟨s.unread, s.eofbit, true⟩, str)

/-- The eleven local strings of the save branch, under the names of the source. -/
structure SaveFields where
  pInfo : Str
  pcS : Str
  partyS : Str
  trainS : Str
  leadS : Str
  gioRS : Str
  wobS : Str
  dexS : Str
  itemS : Str
  tmS : Str
  fLoc : Str
deriving DecidableEq

/-- Lines 193-214: eleven default-constructed strings, then eleven `getline`
calls in the order of the source. The stream left behind is returned too. -/
def readSaveFields (content : Str) : SaveFields × IStream :=
  let s0 := openSave content
  let r1 := getline s0 []
  let r2 := getline r1.1 []
  let r3 := getline r2.1 []
  let r4 := getline r3.1 []
  let r5 := getline r4.1 []
  let r6 := getline r5.1 []
  let r7 := getline r6.1 []
  let r8 := getline r7.1 []
  let r9 := getline r8.1 []
  let r10 := getline r9.1 []
  let r11 := getline r10.1 []
  (⟨r1.2, r2.2, r3.2, r4.2, r5.2, r6.2, r7.2, r8.2, r9.2, r10.2, r11.2⟩, r11.1)

/-- The string arguments that the save branch hands to its collaborators. -/
structure SaveRouting where
  /-- Arguments of `new Player(pcS, partyS, dexS, itemS, tmS)`, in order. -/
  playerCtor : List Str
  /-- The string scanned by the fly-location loop. -/
  flyReplay : Str
  /-- String arguments of `Trainer::buildTrainers(player, trainS, leadS, gioRS)`. -/
  buildTrainers : List Str
  /-- String argument of `WorldObject::buildWorldObjects(player, wobS)`. -/
  buildWorldObjects : Str
  /-- Third argument of `OverworldGui gui(player, renderer, pInfo)`. -/
  guiSaveInfo : Str
deriving DecidableEq

/-- Lines 215-226: where each local string goes. -/
def routeSave (f : SaveFields) : SaveRouting :=
  ⟨[f.pcS, f.partyS, f.dexS, f.itemS, f.tmS], f.fLoc, [f.trainS, f.leadS, f.gioRS],
    f.wobS, f.pInfo⟩

/-- The save branch up to the construction of the controller. -/
def saveBranchRouting (content : Str) : SaveRouting :=
  routeSave (readSaveFields content).1

/-- The lines of a text file, as the claim counts them: each newline ends a
line, and characters after the last newline form a last line. -/
def fileLines : Str → List Str
  | [] => []
  | c :: cs =>
    if c = '\n' then [] :: fileLines cs
    else
      match fileLines cs with
      | [] => [[c]]
      | l :: ls => (c :: l) :: ls

/-- The lines still to come on a stream: none once a state bit is set. -/
def IStream.pendingLines (s : IStream) : List Str :=
  if s.good then fileLines s.unread else []

/-! ## Fly-location replay (`Main.cpp` 216-220) -/

/-- A `FlyLocation` object, as far as `main` touches it: the `visited` flag. -/
structure FlyLocation where
  visited : Bool
deriving DecidableEq

/-- The table `FlyLocation::FLY_LOCATIONS`: a name is mapped to its location
object, or to nothing when the table has no location under that name (the
pointer the lookup yields is then null). Each name has a location of its own.
The type of names is a parameter: the declaration is not in the sources. -/
abbrev FlyTable (K : Type) := K → Option FlyLocation

/-- How the replay loop can end. -/
inductive ReplayResult (K : Type) where
  /-- The loop condition became false; the table is as given. -/
  | done (table : FlyTable K)
  /-- An access `fLoc[i]` or `INDEX_MEANINGS[i + 1]` outside the container. -/
  | outOfRange
  /-- The access `->visited` through a null pointer. -/
  | nullDeref
  /-- The model's iteration budget ran out before the loop condition failed. -/
  | outOfFuel

/-- The statement `FLY_LOCATIONS[name]->visited = true` on an existing location. -/
def markVisited {K : Type} [DecidableEq K] (t : FlyTable K) (name : K) (loc : FlyLocation) :
    FlyTable K :=
  fun k => if k = name then some { loc with visited := true } else t k

/-- The `for` loop of lines 216-220, from index `i` on, with at most `fuel`
evaluations of the loop condition. -/
def replayLoop {K : Type} [DecidableEq K] (INDEX_MEANINGS : List K) (fLoc : Str) :
    Nat → Nat → FlyTable K → ReplayResult K
  | 0, _, _ => .outOfFuel
  | fuel + 1, i, t =>
    if i < fLoc.length ∧ i + 1 < INDEX_MEANINGS.length then
      match fLoc[i]? with
      | none => .outOfRange
      | some c =>
        if c = '1' then
          match INDEX_MEANINGS[i + 1]? with
          | none => .outOfRange
          | some name =>
            match t name with
            | none => .nullDeref
            | some loc => replayLoop INDEX_MEANINGS fLoc fuel (i + 1) (markVisited t name loc)
        else
          replayLoop INDEX_MEANINGS fLoc fuel (i + 1) t
    else
      .done t

/-- Lines 216-220: the loop started at `i = 0`. The condition is evaluated at
most `fLoc.size() + 1` times, which is the budget given. -/
def replayFlyLocations {K : Type} [DecidableEq K] (INDEX_MEANINGS : List K) (fLoc : Str)
    (t : FlyTable K) : ReplayResult K :=
  replayLoop INDEX_MEANINGS fLoc (fLoc.length + 1) 0 t

/-- The `visited` flag under a name (false when the table has no such name). -/
def isVisited {K : Type} (t : FlyTable K) (k : K) : Bool :=
  match t k with
  | some loc => loc.visited
  | none => false

/-- The flag under a name after a replay that ran to its end. -/
def ReplayResult.visited {K : Type} (r : ReplayResult K) (k : K) : Option Bool :=
  match r with
  | .done t => some (isVisited t k)
  | _ => none

/-- A table whose names are those listed, every flag false. -/
def unvisitedTable {K : Type} [DecidableEq K] (names : List K) : FlyTable K :=
  fun k => if k ∈ names then some ⟨false⟩ else none

/-! ## Session loop (`Main.cpp` 227-239 and 256-268) -/

/-- An `SDL_Event`, as far as `main` looks at it: the `type` tag. The rest of
the union travels along untouched. -/
structure Event where
  type : Nat
  payload : Nat
deriving DecidableEq

/-- The value of the enumerator `SDL_QUIT`. -/
def SDL_QUIT : Nat := 0x100

/-- The calls a loop makes on its collaborators, in program order. -/
inductive LoopCall where
  | handleEvent (e : Event)
  | update
  | render
  | delay (ms : Nat)
deriving DecidableEq

/-- The variables a loop carries: its `running` flag, the calls made so far,
and the number of completed passes through the outer loop body. -/
structure LoopState where
  running : Bool
  calls : List LoopCall
  iterations : Nat
deriving DecidableEq

/-- The loop state at `bool running = true;`. -/
def LoopState.start : LoopState :=
  ⟨true, [], 0⟩

/-- The inner loop `while (SDL_PollEvent(&event)) { ... }` of the saved-game
branch (lines 230-235), over the events the queue hands out during this pass. -/
def drainSaved : List Event → LoopState → LoopState
  | [], st => st
  | event :: pending, st =>
    let running := if event.type = SDL_QUIT then false else st.running
    drainSaved pending ⟨running, st.calls ++ [.handleEvent event], st.iterations⟩

/-- The outer loop `while (running) { ... }` of the saved-game branch (lines
228-239). `batches` lists, pass by pass, the events that `SDL_PollEvent` hands
out; when the list is used up the state is returned as it stands, with
`running` still set if no quit event came. -/
def savedGameLoop : List (List Event) → LoopState → LoopState
  | [], st => st
  | batch :: later, st =>
    if st.running then
      let st1 := drainSaved batch st
      savedGameLoop later
        ⟨st1.running, st1.calls ++ [.update, .render, .delay 16], st1.iterations + 1⟩
    else
      st

/-- The inner loop of the fresh-game branch (lines 259-264). -/
def drainFresh : List Event → LoopState → LoopState
  | [], st => st
  | event :: pending, st =>
    let running := if event.type = SDL_QUIT then false else st.running
    drainFresh pending ⟨running, st.calls ++ [.handleEvent event], st.iterations⟩

/-- The outer loop of the fresh-game branch (lines 257-268). -/
def freshGameLoop : List (List Event) → LoopState → LoopState
  | [], st => st
  | batch :: later, st =>
    if st.running then
      let st1 := drainFresh batch st
      freshGameLoop later
        ⟨st1.running, st1.calls ++ [.update, .render, .delay 16], st1.iterations + 1⟩
    else
      st

/-- Whether a batch holds a quit event. -/
def hasQuit (batch : List Event) : Bool :=
  batch.any (fun e => e.type == SDL_QUIT)

/-- The calls of one pass, as the claim lists them: every event of the batch
forwarded in arrival order, then one `update`, one `render` and the delay. -/
def passCalls (batch : List Event) : List LoopCall :=
  batch.map LoopCall.handleEvent ++ [.update, .render, .delay 16]

/-- The batches that get a pass: all up to and including the first one with a
quit event. -/
def passed : List (List Event) → List (List Event)
  | [] => []
  | batch :: later => if hasQuit batch then [batch] else batch :: passed later

/-! ## Static data pipeline (`Main.cpp` 140-161) -/

/-- What a thrown object is to the handlers of `main`: a `std::exception` with
its `what()` text, or anything else. -/
inductive Exn where
  | std (what : Str)
  | other
deriving DecidableEq

/-- The sixteen table builders, under the names `buildGameData` passes to
`runStep` for them. -/
inductive BuilderId where
  | Types | Monsters | Moves | Learnsets | Evolutions | PokeMaps | WorldMap | Warps
  | TmLearnsets | Encounters | Items | MartItems | Givers | Blockers | Traders | Npcs
deriving DecidableEq

/-- The builders themselves are not in the sources: each is a parameter that
takes the registries (of any type `σ`) to new registries, or throws. -/
abbrev Builders (σ : Type) := BuilderId → σ → Except Exn σ

/-- The process-wide registries together with the record of the builders
entered so far. -/
structure BuildState (σ : Type) where
  registries : σ
  invoked : List BuilderId

/-- A piece of `buildGameData`: it leaves a state and either returns (`none`)
or throws (`some e`). -/
abbrev BuildStep (σ : Type) := BuildState σ → BuildState σ × Option Exn

/-- A call `X::buildX()`: the builder is entered (and recorded), then it
returns with the registries it built or throws. What a throwing builder has
already written is not known; the registries are kept as they were. -/
def callBuilder {σ : Type} (impl : Builders σ) (b : BuilderId) : BuildStep σ :=
  fun s =>
    match impl b s.registries with
    | .ok r => (⟨r, s.invoked ++ [b]⟩, none)
    | .error e => (⟨s.registries, s.invoked ++ [b]⟩, some e)

/-- The lambda `runStep`: `(void)name; fn();`. The name is not used. -/
def runStep {σ : Type} (_name : Str) (fn : BuildStep σ) : BuildStep σ :=
  fn

/-- Two statements in a row: the second runs only when the first returned. -/
def andThen {σ : Type} (first second : BuildStep σ) : BuildStep σ :=
  fun s =>
    match first s with
    | (s1, none) => second s1
    | (s1, some e) => (s1, some e)

/-- The function `buildGameData`: sixteen `runStep` statements. -/
def buildGameData {σ : Type} (impl : Builders σ) : BuildStep σ :=
  andThen (runStep "Types".toList (callBuilder impl .Types)) <|
  andThen (runStep "Monsters".toList (callBuilder impl .Monsters)) <|
  andThen (runStep "Moves".toList (callBuilder impl .Moves)) <|
  andThen (runStep "Learnsets".toList (callBuilder impl .Learnsets)) <|
  andThen (runStep "Evolutions".toList (callBuilder impl .Evolutions)) <|
  andThen (runStep "PokeMaps".toList (callBuilder impl .PokeMaps)) <|
  andThen (runStep "WorldMap".toList (callBuilder impl .WorldMap)) <|
  andThen (runStep "Warps".toList (callBuilder impl .Warps)) <|
  andThen (runStep "TmLearnsets".toList (callBuilder impl .TmLearnsets)) <|
  andThen (runStep "Encounters".toList (callBuilder impl .Encounters)) <|
  andThen (runStep "Items".toList (callBuilder impl .Items)) <|
  andThen (runStep "MartItems".toList (callBuilder impl .MartItems)) <|
  andThen (runStep "Givers".toList (callBuilder impl .Givers)) <|
  andThen (runStep "Blockers".toList (callBuilder impl .Blockers)) <|
  andThen (runStep "Traders".toList (callBuilder impl .Traders)) <|
  runStep "Npcs".toList (callBuilder impl .Npcs)

/-- The order the specification declares: types, species, moves, learnsets,
evolutions, maps, world map, warps, TM learnsets, encounters, items, shop
inventories, item-givers, path-blockers, traders, NPCs. -/
def declaredOrder : List BuilderId :=
  [.Types, .Monsters, .Moves, .Learnsets, .Evolutions, .PokeMaps, .WorldMap, .Warps,
    .TmLearnsets, .Encounters, .Items, .MartItems, .Givers, .Blockers, .Traders, .Npcs]

/-- The registries after the listed builders ran one after the other, when
none of them threw; the first exception otherwise. -/
def registriesAfter {σ : Type} (impl : Builders σ) : List BuilderId → σ → Except Exn σ
  | [], r => .ok r
  | b :: bs, r =>
    match impl b r with
    | .ok r1 => registriesAfter impl bs r1
    | .error e => .error e

/-- The listed builders called one after the other, as a step. -/
def callAll {σ : Type} (impl : Builders σ) : List BuilderId → BuildStep σ
  | [] => fun s => (s, none)
  | b :: bs => andThen (callBuilder impl b) (callAll impl bs)

/-! ## Bootstrap, teardown and `main` (`Main.cpp` 36-62, 126-138, 163-281;
`TextRenderer.cpp`) -/

/-- A non-null pointer to an SDL object. A nullable pointer is an `Option`. -/
abbrev Handle := Nat

/-- What `main` and the functions it calls do to the outside, as far as the
claims look: lines on `std::cerr`, the sprite subsystem, and releases. -/
inductive Action where
  | cerr (line : Str)
  | spriteSetRenderer (renderer : Handle)
  | spriteClear
  | closeFont (font : Handle)
  | destroyRenderer (renderer : Handle)
  | destroyWindow (window : Handle)
  | ttfQuit
  | imgQuit
  | sdlQuit
deriving DecidableEq

/-- The actions that only teardown performs. -/
def Action.isTeardown : Action → Bool
  | .cerr _ => false
  | .spriteSetRenderer _ => false
  | _ => true

/-- Whether an action is a line on the error stream. -/
def Action.isCerr : Action → Bool
  | .cerr _ => true
  | _ => false

/-- The statics of `TextRenderer.cpp`. -/
structure TextRenderer where
  s_font : Option Handle
  s_lineHeight : Int
deriving DecidableEq

/-- The statics as initialised: `s_font = nullptr`, `s_lineHeight = 0`. -/
def TextRenderer.initial : TextRenderer :=
  ⟨none, 0⟩

/-- The function `TextRenderer::cleanup`. -/
def TextRenderer.cleanup (tr : TextRenderer) : TextRenderer × List Action :=
  match tr.s_font with
  | some font => (⟨none, 0⟩, [.closeFont font])
  | none => (⟨none, 0⟩, [])

/-- The function `TextRenderer::init`; `opened` is what `TTF_OpenFont` returns
and `lineSkip` what `TTF_FontLineSkip` returns for it. -/
def TextRenderer.init (tr : TextRenderer) (opened : Option Handle) (lineSkip : Int) :
    Bool × TextRenderer × List Action :=
  let cleaned := tr.cleanup
  match opened with
  | none => (false, ⟨none, cleaned.1.s_lineHeight⟩, cleaned.2)
  | some font => (true, ⟨some font, lineSkip⟩, cleaned.2)

/-- The function `TextRenderer::shutdown`. -/
def TextRenderer.shutdown (tr : TextRenderer) : TextRenderer × List Action :=
  tr.cleanup

/-- The function `shutdownSdl`. The two pointers are passed by value. -/
def shutdownSdl (window renderer : Option Handle) (tr : TextRenderer) :
    TextRenderer × List Action :=
  let text := tr.shutdown
  let destroyR : List Action :=
    match renderer with
    | some r => [.destroyRenderer r]
    | none => []
  let destroyW : List Action :=
    match window with
    | some w => [.destroyWindow w]
    | none => []
  (text.1, [Action.spriteClear] ++ text.2 ++ destroyR ++ destroyW ++
    [Action.ttfQuit, Action.imgQuit, Action.sdlQuit])

/-- What the platform answers during `initSdl`: whether each subsystem starts,
the pointers the two constructors return, and the error texts. -/
structure Platform where
  sdlInit : Bool
  imgInit : Bool
  ttfInit : Bool
  createWindow : Option Handle
  createRenderer : Option Handle
  sdlError : Str
  imgError : Str
  ttfError : Str

/-- The result of `initSdl`: its return value, the two pointers it wrote
through its reference parameters, and what it did. -/
structure Boot where
  ok : Bool
  window : Option Handle
  renderer : Option Handle
  log : List Action

/-- The function `initSdl`. -/
def initSdl (p : Platform) : Boot :=
  if !p.sdlInit then
    ⟨false, none, none, [.cerr ("SDL_Init failed: ".toList ++ p.sdlError)]⟩
  else if !p.imgInit then
    ⟨false, none, none, [.cerr ("IMG_Init failed: ".toList ++ p.imgError)]⟩
  else if !p.ttfInit then
    ⟨false, none, none, [.cerr ("TTF_Init failed: ".toList ++ p.ttfError)]⟩
  else
    match p.createWindow with
    | none => ⟨false, none, none, [.cerr ("SDL_CreateWindow failed: ".toList ++ p.sdlError)]⟩
    | some w =>
      match p.createRenderer with
      | none =>
        ⟨false, some w, none, [.cerr ("SDL_CreateRenderer failed: ".toList ++ p.sdlError)]⟩
      | some r => ⟨true, some w, some r, [.spriteSetRenderer r]⟩

/-- The two handlers after the first `try` block (lines 179-187): the line
written to `std::cerr`. -/
def pipelineDiagnostic : Exn → Str
  | .std what => "buildGameData failed: ".toList ++ what
  | .other => "buildGameData failed: unknown error".toList

/-- The two handlers after the second `try` block (lines 270-278). -/
def runtimeDiagnostic : Exn → Str
  | .std what => "Runtime error: ".toList ++ what
  | .other => "Runtime error: unknown error".toList

/-- What a run of `main` leaves behind. -/
structure MainResult where
  exitCode : Int
  log : List Action
  invoked : List BuilderId
  text : TextRenderer

/-- The function `main`. Its surroundings are parameters: the platform's
answers, the path `findFontPath` returns, what `TTF_OpenFont` returns for it,
the builders and the registries they start from, and `session`, the way the
second `try` block ends (`none`: the loop was left on a quit event; `some e`:
`e` was thrown out of save reconstruction or the loop). `ensureWorkingDir`,
`findFontPath` and `logStartupInfo` write nothing that is recorded here and are
taken to return. -/
def main {σ : Type} (p : Platform) (fontPath : Str) (opened : Option Handle) (lineSkip : Int)
    (impl : Builders σ) (registries : σ) (session : Option Exn) : MainResult :=
  let boot := initSdl p
  if !boot.ok then
    let down := shutdownSdl boot.window boot.renderer TextRenderer.initial
    ⟨1, boot.log ++ down.2, [], down.1⟩
  else
    let font := TextRenderer.init TextRenderer.initial opened lineSkip
    let fontLog : List Action :=
      if !font.1 then [.cerr ("Failed to load font ".toList ++ fontPath)] else []
    let built := buildGameData impl ⟨registries, []⟩
    match built.2 with
    | some e =>
      let down := shutdownSdl boot.window boot.renderer font.2.1
      ⟨1, boot.log ++ font.2.2 ++ fontLog ++ [.cerr (pipelineDiagnostic e)] ++ down.2,
        built.1.invoked, down.1⟩
    | none =>
      match session with
      | some e =>
        let down := shutdownSdl boot.window boot.renderer font.2.1
        ⟨1, boot.log ++ font.2.2 ++ fontLog ++ [.cerr (runtimeDiagnostic e)] ++ down.2,
          built.1.invoked, down.1⟩
      | none =>
        let down := shutdownSdl boot.window boot.renderer font.2.1
        ⟨0, boot.log ++ font.2.2 ++ fontLog ++ down.2, built.1.invoked, down.1⟩

/-- The lines written to `std::cerr`, in order. -/
def cerrLines : List Action → List Str
  | [] => []
  | .cerr line :: rest => line :: cerrLines rest
  | _ :: rest => cerrLines rest

/-- Whether `needle` occurs in `text` as a run of consecutive characters. -/
def containsText (needle : Str) : Str → Bool
  | [] => needle.isEmpty
  | c :: cs => needle.isPrefixOf (c :: cs) || containsText needle cs

/-- Teardown called twice in a row with the same two pointers: the state after
the first call, the state after the second, and the actions of both. -/
def shutdownTwice (window renderer : Option Handle) (tr : TextRenderer) :
    TextRenderer × TextRenderer × List Action :=
  let first := shutdownSdl window renderer tr
  let second := shutdownSdl window renderer first.1
  (first.1, second.1, first.2 ++ second.2)

/-- A builder set for the examples: the registries are a counter of finished
builders, and the builder `bad` throws `e`. -/
def throwingAt (bad : BuilderId) (e : Exn) : Builders Nat :=
  fun b r => if b = bad then .error e else .ok (r + 1)

/-- A platform on which every step of `initSdl` succeeds. -/
def healthyPlatform : Platform :=
  ⟨true, true, true, some 1, some 2, [], [], []⟩

/-- Whether an action closes a font. -/
def Action.isCloseFont : Action → Bool
  | .closeFont _ => true
  | _ => false

/-! ## Theorems -/

theorem eraseCommas_no_comma (s : Str) : ',' ∉ eraseCommas s := by
  intro h
  have := (List.mem_filter.mp h).2
  simp at this

theorem eraseCommas_take_no_comma (s : Str) (n : Nat) : ',' ∉ (eraseCommas s).take n :=
  fun h => eraseCommas_no_comma s (List.mem_of_mem_take h)

/-- C6: with the player initially named "Purple", the stored name is "Purple"
when the answer without its commas is empty (the empty answer and all-comma
answers included), and otherwise it is the comma-stripped answer cut to its
first 10 characters (whole when it has at most 10); so the stored name is never
empty, has no comma and is at most 10 characters long. -/
theorem storedName_rule (answer : Str) :
    (eraseCommas answer = [] → storedName answer = "Purple".toList) ∧
    (eraseCommas answer ≠ [] → storedName answer = (eraseCommas answer).take 10) ∧
    ((eraseCommas answer).length ≤ 10 → eraseCommas answer ≠ [] →
      storedName answer = eraseCommas answer) ∧
    storedName [] = "Purple".toList ∧
    storedName ",,,".toList = "Purple".toList ∧
    storedName answer ≠ [] ∧
    ',' ∉ storedName answer ∧
    (storedName answer).length ≤ 10 := by
  have hP : "Purple".toList = ['P', 'u', 'r', 'p', 'l', 'e'] := rfl
  have key : storedName answer =
      if eraseCommas answer = [] then "Purple".toList else (eraseCommas answer).take 10 := by
    unfold storedName freshGameName substr0_10
    cases answer with
    | nil => simp [eraseCommas]
    | cons a as =>
      by_cases h : eraseCommas (a :: as) = []
      · simp [h]
      · have hlen : (eraseCommas (a :: as)).length < 11 →
            eraseCommas (a :: as) = (eraseCommas (a :: as)).take 10 := by
          intro hl
          rw [List.take_of_length_le (by omega)]
        by_cases hl : (eraseCommas (a :: as)).length < 11
        · simp [h, hl, ← hlen hl]
        · simp [h, hl]
  refine ⟨?_, ?_, ?_, ?_, ?_, ?_, ?_, ?_⟩
  · intro h; rw [key, if_pos h]
  · intro h; rw [key, if_neg h]
  · intro hl h; rw [key, if_neg h, List.take_of_length_le hl]
  · decide
  · decide
  · rw [key]
    by_cases h : eraseCommas answer = []
    · rw [if_pos h, hP]; simp
    · rw [if_neg h]
      cases hc : eraseCommas answer with
      | nil => exact absurd hc h
      | cons c cs => simp
  · rw [key]
    by_cases h : eraseCommas answer = []
    · rw [if_pos h, hP]; decide
    · rw [if_neg h]; exact eraseCommas_take_no_comma answer 10
  · rw [key]
    by_cases h : eraseCommas answer = []
    · rw [if_pos h, hP]; decide
    · rw [if_neg h]; simp [List.length_take]

/-- C7 (as stated, refuted): on the answer "Ash,Ketchum" the stored name is not
"AshKetchu". -/
theorem storedName_ash_not_nine : storedName "Ash,Ketchum".toList ≠ "AshKetchu".toList := by
  decide

/-- C7 (amended): on the answer "Ash,Ketchum" the stored name is "AshKetchum":
the comma is dropped and the ten remaining characters are all kept. -/
theorem storedName_ash : storedName "Ash,Ketchum".toList = "AshKetchum".toList := by
  decide

/-! ### Save parsing -/

theorem fileLines_eq_nil {c : Str} (h : fileLines c = []) : c = [] := by
  cases c with
  | nil => rfl
  | cons a as =>
    simp only [fileLines] at h
    split at h
    · simp at h
    · split at h <;> simp at h

theorem extractLine_delim (c : Str) (h : (extractLine c).2.2 = true) :
    fileLines c = (extractLine c).1 :: fileLines (extractLine c).2.1 := by
  induction c with
  | nil => simp [extractLine] at h
  | cons a as ih =>
    by_cases ha : a = '\n'
    · simp [extractLine, fileLines, ha]
    · simp only [extractLine, ha, if_false] at h ⊢
      simp only [fileLines, ha, if_false]
      rw [ih h]

theorem extractLine_eof (c : Str) (h : (extractLine c).2.2 = false) :
    (extractLine c).1 = c ∧ (extractLine c).2.1 = [] ∧
      fileLines c = if c = [] then [] else [c] := by
  induction c with
  | nil => simp [extractLine, fileLines]
  | cons a as ih =>
    by_cases ha : a = '\n'
    · simp [extractLine, ha] at h
    · simp only [extractLine, ha, if_false] at h ⊢
      obtain ⟨h1, h2, h3⟩ := ih h
      refine ⟨by rw [h1], h2, ?_⟩
      simp only [fileLines, ha, if_false, h3]
      by_cases hn : as = []
      · simp [hn]
      · simp [hn]

/-- One `getline` into an empty string yields the first pending line (or the
empty string when none is pending) and leaves the other lines pending. -/
theorem getline_pending (s : IStream) :
    (getline s []).2 = s.pendingLines.headD [] ∧
      (getline s []).1.pendingLines = s.pendingLines.tail := by
  obtain ⟨u, e, f⟩ := s
  cases e <;> cases f <;>
    try (simp [getline, IStream.pendingLines, IStream.good]; done)
  simp only [getline, IStream.pendingLines, IStream.good, Bool.not_false, Bool.and_self,
    if_true]
  by_cases hd : (extractLine u).2.2 = true
  · simp only [hd, if_true]
    rw [extractLine_delim _ hd]
    simp
  · have hd2 : (extractLine u).2.2 = false := by simpa using hd
    obtain ⟨h1, _, h3⟩ := extractLine_eof _ hd2
    simp only [hd2, Bool.false_eq_true, if_false, h1, h3]
    by_cases hn : u = []
    · simp [hn]
    · simp [hn]

theorem headD_drop_eq_getD (L : List Str) (n : Nat) :
    (L.drop n).headD [] = L.getD n [] := by
  induction L generalizing n with
  | nil => simp
  | cons a as ih =>
    cases n with
    | zero => simp
    | succ m => simp [ih m]

theorem getline_drop (s : IStream) (L : List Str) (n : Nat)
    (h : s.pendingLines = L.drop n) :
    (getline s []).2 = L.getD n [] ∧ (getline s []).1.pendingLines = L.drop (n + 1) := by
  obtain ⟨h1, h2⟩ := getline_pending s
  rw [h] at h1 h2
  exact ⟨by rw [h1, headD_drop_eq_getD], by rw [h2, List.tail_drop]⟩

theorem readSaveFields_lines (content : Str) :
    (readSaveFields content).1 =
      ⟨(fileLines content).getD 0 [], (fileLines content).getD 1 [],
        (fileLines content).getD 2 [], (fileLines content).getD 3 [],
        (fileLines content).getD 4 [], (fileLines content).getD 5 [],
        (fileLines content).getD 6 [], (fileLines content).getD 7 [],
        (fileLines content).getD 8 [], (fileLines content).getD 9 [],
        (fileLines content).getD 10 []⟩ ∧
    (readSaveFields content).2.pendingLines = (fileLines content).drop 11 := by
  have h0 : (openSave content).pendingLines = (fileLines content).drop 0 := by
    simp [openSave, IStream.pendingLines, IStream.good]
  obtain ⟨f1, p1⟩ := getline_drop _ _ _ h0
  obtain ⟨f2, p2⟩ := getline_drop _ _ _ p1
  obtain ⟨f3, p3⟩ := getline_drop _ _ _ p2
  obtain ⟨f4, p4⟩ := getline_drop _ _ _ p3
  obtain ⟨f5, p5⟩ := getline_drop _ _ _ p4
  obtain ⟨f6, p6⟩ := getline_drop _ _ _ p5
  obtain ⟨f7, p7⟩ := getline_drop _ _ _ p6
  obtain ⟨f8, p8⟩ := getline_drop _ _ _ p7
  obtain ⟨f9, p9⟩ := getline_drop _ _ _ p8
  obtain ⟨f10, p10⟩ := getline_drop _ _ _ p9
  obtain ⟨f11, p11⟩ := getline_drop _ _ _ p10
  refine ⟨?_, p11⟩
  simp only [readSaveFields]
  rw [f1, f2, f3, f4, f5, f6, f7, f8, f9, f10, f11]

theorem getD_of_take_eq (L L' : List Str) (n j : Nat) (hj : j < n)
    (h : L'.take n = L.take n) : L'.getD j [] = L.getD j [] := by
  have e : ∀ X : List Str, X.getD j [] = (X.take n).getD j [] := by
    intro X
    simp [List.getD_eq_getElem?_getD, List.getElem?_take, hj]
  rw [e L', e L, h]

/-- C3: for every content of an existing save file, with `l1..lk` its lines,
field `j` (1 to 11) is `lj` when `j ≤ k` and the empty string otherwise (the
parse is a total function, there is no failure for `k < 11`); the lines after
the eleventh stay unread on the stream and two files that agree on their first
eleven lines give the same fields; and routing is by position: line 1 to the
controller's save-info, lines 2, 3, 8, 9, 10 in that order to the `Player`
constructor, line 11 to the fly-location replay, lines 4, 5, 6 to trainer
construction and line 7 to world-object construction. -/
theorem save_parsing_positional (content : Str) :
    (readSaveFields content).1 =
      ⟨(fileLines content).getD 0 [], (fileLines content).getD 1 [],
        (fileLines content).getD 2 [], (fileLines content).getD 3 [],
        (fileLines content).getD 4 [], (fileLines content).getD 5 [],
        (fileLines content).getD 6 [], (fileLines content).getD 7 [],
        (fileLines content).getD 8 [], (fileLines content).getD 9 [],
        (fileLines content).getD 10 []⟩ ∧
    (∀ j, (fileLines content).length ≤ j → (fileLines content).getD j [] = []) ∧
    (readSaveFields content).2.pendingLines = (fileLines content).drop 11 ∧
    (∀ other : Str, (fileLines other).take 11 = (fileLines content).take 11 →
      (readSaveFields other).1 = (readSaveFields content).1) ∧
    saveBranchRouting content =
      ⟨[(fileLines content).getD 1 [], (fileLines content).getD 2 [],
          (fileLines content).getD 7 [], (fileLines content).getD 8 [],
          (fileLines content).getD 9 []],
        (fileLines content).getD 10 [],
        [(fileLines content).getD 3 [], (fileLines content).getD 4 [],
          (fileLines content).getD 5 []],
        (fileLines content).getD 6 [],
        (fileLines content).getD 0 []⟩ := by
  obtain ⟨hf, hp⟩ := readSaveFields_lines content
  refine ⟨hf, ?_, hp, ?_, ?_⟩
  · intro j hj
    simp [List.getD_eq_getElem?_getD, List.getElem?_eq_none hj]
  · intro other h
    rw [(readSaveFields_lines other).1, hf]
    have g := fun j (hj : j < 11) => getD_of_take_eq (fileLines content) (fileLines other) 11 j hj h
    rw [g 0 (by omega), g 1 (by omega), g 2 (by omega), g 3 (by omega), g 4 (by omega),
      g 5 (by omega), g 6 (by omega), g 7 (by omega), g 8 (by omega), g 9 (by omega),
      g 10 (by omega)]
  · simp only [saveBranchRouting, routeSave, hf]

/-! ### Fly-location replay -/

section Replay

variable {K : Type} [DecidableEq K]

theorem markVisited_isSome (t : FlyTable K) (name : K) (loc : FlyLocation)
    (h : t name = some loc) (k : K) : (markVisited t name loc k).isSome = (t k).isSome := by
  unfold markVisited
  by_cases hk : k = name
  · simp [hk, h]
  · simp [hk]

theorem isVisited_markVisited (t : FlyTable K) (name : K) (loc : FlyLocation) (k : K) :
    isVisited (markVisited t name loc) k = true ↔ isVisited t k = true ∨ k = name := by
  unfold isVisited markVisited
  by_cases hk : k = name
  · simp [hk]
  · simp [hk]

/-- The loop invariant, unrolled: from index `i` with enough budget the loop
ends normally, keeps the set of names, raises exactly the flags selected by a
`'1'` at some index `j ≥ i` (the name being entry `j + 1`), and leaves every
other entry as it was. -/
theorem replayLoop_spec (M : List K) (b : Str) :
    ∀ (fuel i : Nat) (t : FlyTable K), (∀ m ∈ M, (t m).isSome = true) →
      i ≤ b.length → b.length + 1 ≤ fuel + i →
      ∃ t', replayLoop M b fuel i t = .done t' ∧
        (∀ k, (t' k).isSome = (t k).isSome) ∧
        (∀ k, isVisited t' k = true ↔
          isVisited t k = true ∨ ∃ j, i ≤ j ∧ b[j]? = some '1' ∧ M[j + 1]? = some k) ∧
        (∀ k, (¬ ∃ j, i ≤ j ∧ b[j]? = some '1' ∧ M[j + 1]? = some k) → t' k = t k) := by
  intro fuel
  induction fuel with
  | zero => intro i t _ h1 h2; omega
  | succ fuel ih =>
    intro i t hkeys hi hfuel
    unfold replayLoop
    by_cases hc : i < b.length ∧ i + 1 < M.length
    · rw [if_pos hc]
      obtain ⟨hib, hiM⟩ := hc
      have hb : b[i]? = some b[i] := List.getElem?_eq_getElem hib
      have hM : M[i + 1]? = some M[i + 1] := List.getElem?_eq_getElem hiM
      rw [hb]
      simp only
      by_cases h1 : b[i] = '1'
      · rw [if_pos h1, hM]
        simp only
        have hsome := hkeys M[i + 1] (List.getElem_mem hiM)
        obtain ⟨loc, hloc⟩ := Option.isSome_iff_exists.mp hsome
        rw [hloc]
        simp only
        have hkeys2 : ∀ m ∈ M, ((markVisited t M[i + 1] loc) m).isSome = true := by
          intro m hm
          rw [markVisited_isSome t _ loc hloc]
          exact hkeys m hm
        obtain ⟨t', hrun, hs, hv, hf⟩ := ih (i + 1) _ hkeys2 (by omega) (by omega)
        refine ⟨t', hrun, ?_, ?_, ?_⟩
        · intro k
          rw [hs k, markVisited_isSome t _ loc hloc]
        · intro k
          rw [hv k, isVisited_markVisited]
          constructor
          · rintro ((h | h) | ⟨j, hj, hbj, hMj⟩)
            · exact Or.inl h
            · exact Or.inr ⟨i, le_refl i, by rw [hb, h1], by rw [hM, h]⟩
            · exact Or.inr ⟨j, by omega, hbj, hMj⟩
          · rintro (h | ⟨j, hj, hbj, hMj⟩)
            · exact Or.inl (Or.inl h)
            · by_cases hji : j = i
              · subst hji
                rw [hM] at hMj
                exact Or.inl (Or.inr (Option.some.inj hMj).symm)
              · exact Or.inr ⟨j, by omega, hbj, hMj⟩
        · intro k hk
          have hk2 : ¬ ∃ j, i + 1 ≤ j ∧ b[j]? = some '1' ∧ M[j + 1]? = some k := by
            rintro ⟨j, hj, hbj, hMj⟩
            exact hk ⟨j, by omega, hbj, hMj⟩
          rw [hf k hk2]
          have hne : k ≠ M[i + 1] := by
            intro hkeq
            exact hk ⟨i, le_refl i, by rw [hb, h1], by rw [hM, hkeq]⟩
          simp [markVisited, hne]
      · rw [if_neg h1]
        obtain ⟨t', hrun, hs, hv, hf⟩ := ih (i + 1) t hkeys (by omega) (by omega)
        have hskip : ∀ k, (∃ j, i ≤ j ∧ b[j]? = some '1' ∧ M[j + 1]? = some k) ↔
            ∃ j, i + 1 ≤ j ∧ b[j]? = some '1' ∧ M[j + 1]? = some k := by
          intro k
          constructor
          · rintro ⟨j, hj, hbj, hMj⟩
            have hji : j ≠ i := by
              intro hji
              subst hji
              rw [hb] at hbj
              exact h1 (Option.some.inj hbj)
            exact ⟨j, by omega, hbj, hMj⟩
          · rintro ⟨j, hj, hbj, hMj⟩
            exact ⟨j, by omega, hbj, hMj⟩
        refine ⟨t', hrun, hs, ?_, ?_⟩
        · intro k; rw [hv k, hskip k]
        · intro k hk; exact hf k (fun h => hk ((hskip k).mpr h))
    · rw [if_neg hc]
      refine ⟨t, rfl, fun _ => rfl, ?_, fun _ _ => rfl⟩
      intro k
      constructor
      · exact Or.inl
      · rintro (h | ⟨j, hj, hbj, hMj⟩)
        · exact h
        · exfalso
          have hjb : j < b.length := by
            by_contra hcon
            rw [List.getElem?_eq_none (by omega)] at hbj
            exact Option.noConfusion hbj
          have hjM : j + 1 < M.length := by
            by_contra hcon
            rw [List.getElem?_eq_none (by omega)] at hMj
            exact Option.noConfusion hMj
          exact hc ⟨by omega, by omega⟩

/-- C4 (as stated, refuted): with mask "01" and names "_", "Pallet",
"Viridian", all flags false before, the mask has a '1' at index 1, yet neither
"_" (entry 0, one below the index) nor "Pallet" (entry 1, one below the
one-based position 2) ends visited; the flag raised is that of "Viridian". -/
theorem replay_offset_not_downward :
    (¬ ∀ (i : Nat) (name : String), "01".toList[i + 1]? = some '1' →
        ["_", "Pallet", "Viridian"][i]? = some name →
        (replayFlyLocations ["_", "Pallet", "Viridian"] "01".toList
          (unvisitedTable ["_", "Pallet", "Viridian"])).visited name = some true) ∧
    (¬ ∀ (i : Nat) (name : String), "01".toList[i]? = some '1' →
        ["_", "Pallet", "Viridian"][i]? = some name →
        (replayFlyLocations ["_", "Pallet", "Viridian"] "01".toList
          (unvisitedTable ["_", "Pallet", "Viridian"])).visited name = some true) ∧
    (replayFlyLocations ["_", "Pallet", "Viridian"] "01".toList
      (unvisitedTable ["_", "Pallet", "Viridian"])).visited "Viridian" = some true := by
  refine ⟨fun h => ?_, fun h => ?_, by decide⟩
  · exact absurd (h 0 "_" (by decide) (by decide)) (by decide)
  · exact absurd (h 1 "Pallet" (by decide) (by decide)) (by decide)

/-- C4 (amended): a '1' at index `i` of the mask (counted from 0) marks as
visited the location named by entry `i + 1` of `INDEX_MEANINGS`, for every mask
and every mapping whose names are in the table. -/
theorem replay_offset_upward (M : List K) (b : Str) (t : FlyTable K) (i : Nat) (name : K)
    (hkeys : ∀ m ∈ M, (t m).isSome = true)
    (hbit : b[i]? = some '1') (hname : M[i + 1]? = some name) :
    (replayFlyLocations M b t).visited name = some true := by
  obtain ⟨t', hrun, _, hv, _⟩ :=
    replayLoop_spec M b (b.length + 1) 0 t hkeys (Nat.zero_le _) (le_refl _)
  unfold replayFlyLocations
  rw [hrun]
  simp only [ReplayResult.visited, Option.some.injEq]
  exact (hv name).mpr (Or.inr ⟨i, Nat.zero_le _, hbit, hname⟩)

theorem replay_offset_upward_witness :
    (replayFlyLocations ["_", "Pallet", "Viridian"] "01".toList
      (unvisitedTable ["_", "Pallet", "Viridian"])).visited "Viridian" = some true :=
  replay_offset_upward ["_", "Pallet", "Viridian"] "01".toList
    (unvisitedTable ["_", "Pallet", "Viridian"]) 1 "Viridian" (by decide) (by decide) (by decide)

/-- C5: for every mask `b` and every mapping `M` whose names are pairwise
distinct and all in the table, the replay ends normally (no access outside `b`
or `M`, no missing location), and afterwards: for `1 ≤ j < |M|` the flag of
`M[j]` is its old flag OR (`j - 1 < |b|` and `b[j - 1] = '1'`); the entry of
`M[0]` and of every name not in `M` is unchanged; no flag is cleared. From all
flags false, mask "101" against "A", "B", "C" ends with "B" visited, and mask
"01" against "_", "Pallet", "Viridian" ends with "Pallet" not visited. -/
theorem replay_frame (M : List K) (b : Str) (t : FlyTable K)
    (hnodup : M.Nodup) (hkeys : ∀ m ∈ M, (t m).isSome = true) :
    ∃ t', replayFlyLocations M b t = .done t' ∧
      (∀ (j : Nat) (hj : j < M.length), 1 ≤ j →
        isVisited t' M[j] = (isVisited t M[j] || decide (b[j - 1]? = some '1'))) ∧
      (∀ h0 : 0 < M.length, t' M[0] = t M[0]) ∧
      (∀ k, k ∉ M → t' k = t k) ∧
      (∀ k, isVisited t k = true → isVisited t' k = true) ∧
      (replayFlyLocations ["A", "B", "C"] "101".toList
        (unvisitedTable ["A", "B", "C"])).visited "B" = some true ∧
      (replayFlyLocations ["_", "Pallet", "Viridian"] "01".toList
        (unvisitedTable ["_", "Pallet", "Viridian"])).visited "Pallet" = some false := by
  obtain ⟨t', hrun, _, hv, hf⟩ :=
    replayLoop_spec M b (b.length + 1) 0 t hkeys (Nat.zero_le _) (le_refl _)
  have hidx : ∀ (j j' : Nat) (hj : j < M.length), M[j']? = some M[j] → j' = j := by
    intro j j' hj h
    have hj' : j' < M.length := by
      by_contra hcon
      rw [List.getElem?_eq_none (by omega)] at h
      exact Option.noConfusion h
    rw [List.getElem?_eq_getElem hj'] at h
    exact (List.Nodup.getElem_inj_iff hnodup).mp (Option.some.inj h)
  refine ⟨t', hrun, ?_, ?_, ?_, ?_, by decide, by decide⟩
  · intro j hj h1
    rw [Bool.eq_iff_iff, hv M[j]]
    simp only [Bool.or_eq_true, decide_eq_true_eq]
    constructor
    · rintro (h | ⟨j', _, hbj, hMj⟩)
      · exact Or.inl h
      · have := hidx j (j' + 1) hj hMj
        have hjj : j' = j - 1 := by omega
        rw [hjj] at hbj
        exact Or.inr hbj
    · rintro (h | h)
      · exact Or.inl h
      · refine Or.inr ⟨j - 1, Nat.zero_le _, h, ?_⟩
        have hjj : j - 1 + 1 = j := by omega
        rw [hjj, List.getElem?_eq_getElem hj]
  · intro h0
    apply hf
    rintro ⟨j', _, _, hMj⟩
    have := hidx 0 (j' + 1) h0 hMj
    omega
  · intro k hk
    apply hf
    rintro ⟨j', _, _, hMj⟩
    exact hk (List.getElem?_mem hMj)
  · intro k h
    exact (hv k).mpr (Or.inl h)

theorem replay_frame_witness :
    ∃ t', replayFlyLocations ["_", "Pallet", "Viridian"] "01".toList
        (unvisitedTable ["_", "Pallet", "Viridian"]) = .done t' ∧
      isVisited t' "Viridian" = true ∧ isVisited t' "Pallet" = false ∧
      t' "_" = some ⟨false⟩ := by
  obtain ⟨t', hrun, hv, h0, _, _, _, _⟩ :=
    replay_frame ["_", "Pallet", "Viridian"] "01".toList
      (unvisitedTable ["_", "Pallet", "Viridian"]) (by decide) (by decide)
  refine ⟨t', hrun, ?_, ?_, ?_⟩
  · have h := hv 2 (by decide) (by decide)
    simpa [isVisited, unvisitedTable] using h
  · have h := hv 1 (by decide) (by decide)
    simpa [isVisited, unvisitedTable] using h
  · have h := h0 (by decide)
    simpa [unvisitedTable] using h

end Replay

/-! ### Session loop -/

theorem drainSaved_eq (batch : List Event) (st : LoopState) :
    drainSaved batch st =
      ⟨st.running && !hasQuit batch, st.calls ++ batch.map LoopCall.handleEvent,
        st.iterations⟩ := by
  induction batch generalizing st with
  | nil => simp [drainSaved, hasQuit]
  | cons e es ih =>
    rw [drainSaved, ih]
    by_cases hq : e.type = SDL_QUIT
    · simp [hasQuit, hq]
    · have hb : (e.type == SDL_QUIT) = false := by simpa using hq
      simp [hasQuit, hq, hb]

theorem drainFresh_eq_drainSaved (batch : List Event) (st : LoopState) :
    drainFresh batch st = drainSaved batch st := by
  induction batch generalizing st with
  | nil => rfl
  | cons e es ih => rw [drainFresh, drainSaved, ih]

theorem freshGameLoop_eq_savedGameLoop (batches : List (List Event)) (st : LoopState) :
    freshGameLoop batches st = savedGameLoop batches st := by
  induction batches generalizing st with
  | nil => rfl
  | cons b bs ih =>
    rw [freshGameLoop, savedGameLoop, drainFresh_eq_drainSaved]
    by_cases hr : st.running = true
    · simp only [hr, if_true]; exact ih _
    · simp only [hr]; rfl

theorem savedGameLoop_running (batches : List (List Event)) (calls : List LoopCall) (n : Nat) :
    savedGameLoop batches ⟨true, calls, n⟩ =
      ⟨!batches.any hasQuit, calls ++ ((passed batches).map passCalls).flatten,
        n + (passed batches).length⟩ := by
  induction batches generalizing calls n with
  | nil => simp [savedGameLoop, passed]
  | cons b bs ih =>
    rw [savedGameLoop]
    simp only [if_true, drainSaved_eq, Bool.true_and]
    by_cases hq : hasQuit b = true
    · cases bs with
      | nil => simp [hq, savedGameLoop, passed, passCalls]
      | cons b2 bs2 => simp [hq, savedGameLoop, passed, passCalls]
    · have hq2 : hasQuit b = false := by simpa using hq
      simp only [hq2, Bool.not_false]
      rw [ih]
      simp [passed, hq2, passCalls]
      omega

theorem passed_eq_take (batches : List (List Event)) :
    passed batches = batches.take (passed batches).length := by
  induction batches with
  | nil => rfl
  | cons b bs ih =>
    by_cases hq : hasQuit b = true
    · simp [passed, hq]
    · simp only [passed, hq]
      simp only [Bool.false_eq_true, if_false, List.length_cons, List.take_succ_cons]
      rw [← ih]

theorem lt_passed_length (batches : List (List Event)) (k : Nat) (hk : k < batches.length) :
    k < (passed batches).length ↔
      ∀ j, j < k → ∀ b, batches[j]? = some b → hasQuit b = false := by
  induction batches generalizing k with
  | nil => simp at hk
  | cons b bs ih =>
    cases k with
    | zero =>
      constructor
      · intro _ j hj; omega
      · intro _
        by_cases hq : hasQuit b = true <;> simp [passed, hq]
    | succ k =>
      have hk2 : k < bs.length := by simpa using hk
      by_cases hq : hasQuit b = true
      · simp only [passed, hq, if_true, List.length_singleton]
        constructor
        · intro h; omega
        · intro h
          have := h 0 (by omega) b (by simp)
          simp [hq] at this
      · have hq2 : hasQuit b = false := by simpa using hq
        simp only [passed, hq2, Bool.false_eq_true, if_false, List.length_cons,
          Nat.add_lt_add_iff_right]
        rw [ih k hk2]
        constructor
        · intro h j hj c hc
          cases j with
          | zero =>
            simp only [List.getElem?_cons_zero, Option.some.injEq] at hc
            rw [← hc]; exact hq2
          | succ j =>
            simp only [List.getElem?_cons_succ] at hc
            exact h j (by omega) c hc
        · intro h j hj c hc
          exact h (j + 1) (by omega) c (by simpa using hc)

/-- C8: for every sequence of event batches, the calls made are those of the
passes performed, pass by pass: every event of the batch (a quit event too, and
the events behind it) forwarded to `handleEvent` in arrival order, then one
`update`, then one `render` (then the delay); pass `k` is performed exactly
when no batch before it held a quit event; the loop is left exactly when some
drained event was a quit event; and the fresh-game loop behaves as the
saved-game loop on the same batches. -/
theorem session_loop_trace (batches : List (List Event)) :
    (savedGameLoop batches LoopState.start).calls =
      ((batches.take (savedGameLoop batches LoopState.start).iterations).map
        (fun batch => batch.map LoopCall.handleEvent ++
          [LoopCall.update, LoopCall.render, LoopCall.delay 16])).flatten ∧
    (∀ k, k < batches.length →
      (k < (savedGameLoop batches LoopState.start).iterations ↔
        ∀ j, j < k → ∀ b, batches[j]? = some b → ∀ e ∈ b, e.type ≠ SDL_QUIT)) ∧
    (savedGameLoop batches LoopState.start).iterations ≤ batches.length ∧
    ((savedGameLoop batches LoopState.start).running = false ↔
      ∃ b ∈ batches, ∃ e ∈ b, e.type = SDL_QUIT) ∧
    freshGameLoop batches LoopState.start = savedGameLoop batches LoopState.start := by
  have hrun := savedGameLoop_running batches [] 0
  have hq : ∀ b : List Event, hasQuit b = false ↔ ∀ e ∈ b, e.type ≠ SDL_QUIT := by
    intro b
    simp [hasQuit]
  have hlen : (passed batches).length ≤ batches.length := by
    have h := congrArg List.length (passed_eq_take batches)
    rw [List.length_take] at h
    omega
  simp only [LoopState.start, hrun, List.nil_append, Nat.zero_add]
  refine ⟨?_, ?_, hlen, ?_, ?_⟩
  · rw [← passed_eq_take]
    rfl
  · intro k hk
    rw [lt_passed_length batches k hk]
    constructor
    · intro h j hj b hb
      exact (hq b).mp (h j hj b hb)
    · intro h j hj b hb
      exact (hq b).mpr (h j hj b hb)
  · simp [hasQuit]
  · rw [freshGameLoop_eq_savedGameLoop, hrun]
    simp

/-! ### Static data pipeline -/

section Pipeline

variable {σ : Type}

theorem andThen_return (f : BuildStep σ) : andThen f (fun s => (s, none)) = f := by
  funext s
  unfold andThen
  rcases h : f s with ⟨s1, _ | e⟩ <;> simp

theorem buildGameData_eq_callAll (impl : Builders σ) :
    buildGameData impl = callAll impl declaredOrder := by
  simp only [buildGameData, runStep, declaredOrder, callAll, andThen_return]

theorem callAll_ok (impl : Builders σ) (bs : List BuilderId) (r r1 : σ)
    (inv : List BuilderId) (h : registriesAfter impl bs r = .ok r1) :
    callAll impl bs ⟨r, inv⟩ = (⟨r1, inv ++ bs⟩, none) := by
  induction bs generalizing r inv with
  | nil =>
    simp only [registriesAfter, Except.ok.injEq] at h
    simp [callAll, h]
  | cons b bs ih =>
    simp only [registriesAfter] at h
    cases hb : impl b r with
    | error e => rw [hb] at h; exact Except.noConfusion h
    | ok r2 =>
      rw [hb] at h
      simp only [callAll, andThen, callBuilder, hb]
      rw [ih r2 (inv ++ [b]) h]
      simp

theorem callAll_throw (impl : Builders σ) (bs : List BuilderId) (k : Nat) (b : BuilderId)
    (r r1 : σ) (e : Exn) (inv : List BuilderId) (hb : bs[k]? = some b)
    (hpre : registriesAfter impl (bs.take k) r = .ok r1) (hthrow : impl b r1 = .error e) :
    callAll impl bs ⟨r, inv⟩ = (⟨r1, inv ++ bs.take (k + 1)⟩, some e) := by
  induction bs generalizing r inv k with
  | nil => simp at hb
  | cons c cs ih =>
    cases k with
    | zero =>
      simp only [List.getElem?_cons_zero, Option.some.injEq] at hb
      simp only [List.take_zero, registriesAfter, Except.ok.injEq] at hpre
      subst hb hpre
      simp [callAll, andThen, callBuilder, hthrow]
    | succ k =>
      simp only [List.getElem?_cons_succ] at hb
      simp only [List.take_succ_cons, registriesAfter] at hpre
      cases hc : impl c r with
      | error e2 => rw [hc] at hpre; exact Except.noConfusion hpre
      | ok r2 =>
        rw [hc] at hpre
        simp only [callAll, andThen, callBuilder, hc]
        rw [ih k r2 (inv ++ [c]) hb hpre]
        simp

/-- C1: `buildGameData` enters the sixteen builders once each in the order
Types, Monsters, Moves, Learnsets, Evolutions, PokeMaps, WorldMap, Warps,
TmLearnsets, Encounters, Items, MartItems, Givers, Blockers, Traders, Npcs
when none throws; and when the builder at place `k` (counted from 0) is the
first to throw, the builders entered are exactly those at places `0..k` of that
order, no later one, and the exception leaves `buildGameData`. -/
theorem buildGameData_order (impl : Builders σ) (r0 : σ) :
    (∀ r, registriesAfter impl declaredOrder r0 = .ok r →
      buildGameData impl ⟨r0, []⟩ =
        (⟨r, [.Types, .Monsters, .Moves, .Learnsets, .Evolutions, .PokeMaps, .WorldMap,
          .Warps, .TmLearnsets, .Encounters, .Items, .MartItems, .Givers, .Blockers,
          .Traders, .Npcs]⟩, none)) ∧
    (∀ b : BuilderId, declaredOrder.count b = 1) ∧
    (∀ (k : Nat) (b : BuilderId) (r : σ) (e : Exn), declaredOrder[k]? = some b →
      registriesAfter impl (declaredOrder.take k) r0 = .ok r → impl b r = .error e →
      (buildGameData impl ⟨r0, []⟩).1.invoked = declaredOrder.take (k + 1) ∧
      (buildGameData impl ⟨r0, []⟩).2 = some e) := by
  refine ⟨?_, ?_, ?_⟩
  · intro r h
    rw [buildGameData_eq_callAll, callAll_ok impl declaredOrder r0 r [] h]
    rfl
  · intro b
    cases b <;> decide
  · intro k b r e hb hpre hthrow
    rw [buildGameData_eq_callAll, callAll_throw impl declaredOrder k b r0 r e [] hb hpre hthrow]
    simp

theorem buildGameData_order_witness :
    (buildGameData (throwingAt .Moves (.std "bad move table".toList)) ⟨0, []⟩).1.invoked =
        [.Types, .Monsters, .Moves] ∧
      (buildGameData (throwingAt .Moves (.std "bad move table".toList)) ⟨0, []⟩).2 =
        some (.std "bad move table".toList) :=
  (buildGameData_order (throwingAt .Moves (.std "bad move table".toList)) 0).2.2
    2 .Moves 2 (.std "bad move table".toList) (by decide) rfl rfl

end Pipeline

/-! ### Bootstrap, teardown and `main` -/

theorem initSdl_cases (p : Platform) :
    ((initSdl p).ok = false ∧ ∃ line, (initSdl p).log = [.cerr line]) ∨
      ((initSdl p).ok = true ∧ ∃ w r, (initSdl p).window = some w ∧
        (initSdl p).renderer = some r ∧ (initSdl p).log = [.spriteSetRenderer r]) := by
  unfold initSdl
  cases p.sdlInit <;> cases p.imgInit <;> cases p.ttfInit <;>
    cases p.createWindow <;> cases p.createRenderer <;> simp

theorem shutdownSdl_log (window renderer : Option Handle) (tr : TextRenderer) :
    (shutdownSdl window renderer tr).2.count .sdlQuit = 1 ∧
      (shutdownSdl window renderer tr).2.count .spriteClear = 1 ∧
      cerrLines (shutdownSdl window renderer tr).2 = [] := by
  obtain ⟨f, h⟩ := tr
  cases f <;> cases window <;> cases renderer <;>
    simp [shutdownSdl, TextRenderer.shutdown, TextRenderer.cleanup, cerrLines]

theorem cerrLines_append (a b : List Action) : cerrLines (a ++ b) = cerrLines a ++ cerrLines b := by
  induction a with
  | nil => rfl
  | cons x xs ih => cases x <;> simp [cerrLines, ih]

section Main

variable {σ : Type}

/-- The text-renderer state and the log of `main` up to the first `try`. -/
theorem main_boot_failed (p : Platform) (fontPath : Str) (opened : Option Handle)
    (lineSkip : Int) (impl : Builders σ) (r0 : σ) (session : Option Exn)
    (h : (initSdl p).ok = false) :
    main p fontPath opened lineSkip impl r0 session =
      ⟨1, (initSdl p).log ++
          (shutdownSdl (initSdl p).window (initSdl p).renderer TextRenderer.initial).2,
        [], (shutdownSdl (initSdl p).window (initSdl p).renderer TextRenderer.initial).1⟩ := by
  simp [main, h]

theorem main_booted (p : Platform) (fontPath : Str) (opened : Option Handle)
    (lineSkip : Int) (impl : Builders σ) (r0 : σ) (session : Option Exn)
    (h : (initSdl p).ok = true) :
    ∃ (code : Int) (diag : List Action) (tr : TextRenderer),
      main p fontPath opened lineSkip impl r0 session =
        ⟨code, (initSdl p).log ++
            (if opened.isSome then [] else [.cerr ("Failed to load font ".toList ++ fontPath)]) ++
            diag ++ (shutdownSdl (initSdl p).window (initSdl p).renderer tr).2,
          (buildGameData impl ⟨r0, []⟩).1.invoked,
          (shutdownSdl (initSdl p).window (initSdl p).renderer tr).1⟩ ∧
      ((∃ e, (buildGameData impl ⟨r0, []⟩).2 = some e ∧ code = 1 ∧
          diag = [.cerr (pipelineDiagnostic e)]) ∨
        ((buildGameData impl ⟨r0, []⟩).2 = none ∧ ∃ e, session = some e ∧ code = 1 ∧
          diag = [.cerr (runtimeDiagnostic e)]) ∨
        ((buildGameData impl ⟨r0, []⟩).2 = none ∧ session = none ∧ code = 0 ∧ diag = [])) := by
  cases hb : (buildGameData impl ⟨r0, []⟩).2 with
  | some e =>
    refine ⟨1, [.cerr (pipelineDiagnostic e)],
      (TextRenderer.init TextRenderer.initial opened lineSkip).2.1, ?_, Or.inl ⟨e, rfl, rfl, rfl⟩⟩
    cases opened <;>
      simp [main, h, hb, TextRenderer.init, TextRenderer.initial, TextRenderer.cleanup]
  | none =>
    cases session with
    | some e =>
      refine ⟨1, [.cerr (runtimeDiagnostic e)],
        (TextRenderer.init TextRenderer.initial opened lineSkip).2.1, ?_,
        Or.inr (Or.inl ⟨rfl, e, rfl, rfl, rfl⟩)⟩
      cases opened <;>
        simp [main, h, hb, TextRenderer.init, TextRenderer.initial, TextRenderer.cleanup]
    | none =>
      refine ⟨0, [], (TextRenderer.init TextRenderer.initial opened lineSkip).2.1, ?_,
        Or.inr (Or.inr ⟨rfl, rfl, rfl, rfl⟩)⟩
      cases opened <;>
        simp [main, h, hb, TextRenderer.init, TextRenderer.initial, TextRenderer.cleanup]

/-- C9: `main` returns 1 exactly when bootstrap fails, or a builder throws, or
an exception leaves save reconstruction or the session loop, and 0 otherwise;
on each of the four paths the log ends with the actions of one `shutdownSdl`
call on the session's window and drawing context and holds no teardown action
before them; on each failure path a line is written to the error stream; and
with the font not loaded the exit code is the same and the pipeline still
runs. -/
theorem main_exit_code_and_teardown (p : Platform) (fontPath : Str) (opened : Option Handle)
    (lineSkip : Int) (impl : Builders σ) (r0 : σ) (session : Option Exn) :
    ((main p fontPath opened lineSkip impl r0 session).exitCode = 1 ↔
      ((initSdl p).ok = false ∨
        ((initSdl p).ok = true ∧ (buildGameData impl ⟨r0, []⟩).2 ≠ none) ∨
        ((initSdl p).ok = true ∧ (buildGameData impl ⟨r0, []⟩).2 = none ∧ session ≠ none))) ∧
    ((main p fontPath opened lineSkip impl r0 session).exitCode = 0 ↔
      ((initSdl p).ok = true ∧ (buildGameData impl ⟨r0, []⟩).2 = none ∧ session = none)) ∧
    (∃ pre tr, (main p fontPath opened lineSkip impl r0 session).log =
        pre ++ (shutdownSdl (initSdl p).window (initSdl p).renderer tr).2 ∧
      ∀ a ∈ pre, a.isTeardown = false) ∧
    (main p fontPath opened lineSkip impl r0 session).log.count .sdlQuit = 1 ∧
    ((initSdl p).ok = false →
      ∃ line, cerrLines (main p fontPath opened lineSkip impl r0 session).log = [line]) ∧
    (∀ e, (initSdl p).ok = true → (buildGameData impl ⟨r0, []⟩).2 = some e →
      pipelineDiagnostic e ∈ cerrLines (main p fontPath opened lineSkip impl r0 session).log) ∧
    (∀ e, (initSdl p).ok = true → (buildGameData impl ⟨r0, []⟩).2 = none →
      session = some e →
      runtimeDiagnostic e ∈ cerrLines (main p fontPath opened lineSkip impl r0 session).log) ∧
    (main p fontPath none lineSkip impl r0 session).exitCode =
      (main p fontPath opened lineSkip impl r0 session).exitCode ∧
    ((initSdl p).ok = true →
      (main p fontPath none lineSkip impl r0 session).invoked =
        (buildGameData impl ⟨r0, []⟩).1.invoked) := by
  rcases initSdl_cases p with ⟨hok, line, hlog⟩ | ⟨hok, w, r, hw, hr, hlog⟩
  · have hm := fun o => main_boot_failed p fontPath o lineSkip impl r0 session hok
    rw [hm opened, hm none]
    refine ⟨by simp [hok], by simp [hok], ⟨_, _, rfl, ?_⟩, ?_, ?_, ?_, ?_, rfl, ?_⟩
    · intro a ha
      rw [hlog] at ha
      simp only [List.mem_singleton] at ha
      rw [ha]; rfl
    · simp only [List.count_append, hlog, (shutdownSdl_log _ _ _).1]
      simp
    · intro _
      refine ⟨line, ?_⟩
      simp only [cerrLines_append, hlog, (shutdownSdl_log _ _ _).2.2]
      simp [cerrLines]
    · intro e h; rw [hok] at h; exact Bool.noConfusion h
    · intro e h; rw [hok] at h; exact Bool.noConfusion h
    · intro h; rw [hok] at h; exact Bool.noConfusion h
  · obtain ⟨code, diag, tr, hmain, hpath⟩ :=
      main_booted p fontPath opened lineSkip impl r0 session hok
    obtain ⟨code2, diag2, tr2, hmain2, hpath2⟩ :=
      main_booted p fontPath none lineSkip impl r0 session hok
    rw [hmain, hmain2]
    simp only
    have hcode : code = 1 ∨ code = 0 := by
      rcases hpath with ⟨e, _, hc, _⟩ | ⟨_, e, _, hc, _⟩ | ⟨_, _, hc, _⟩
      · exact Or.inl hc
      · exact Or.inl hc
      · exact Or.inr hc
    have hdiag : ∀ a ∈ diag, a.isTeardown = false ∧ a.isCerr = true := by
      intro a ha
      rcases hpath with ⟨e, _, _, hd⟩ | ⟨_, e, _, _, hd⟩ | ⟨_, _, _, hd⟩ <;>
        rw [hd] at ha <;> simp at ha <;> rw [ha] <;> exact ⟨rfl, rfl⟩
    have hpre : ∀ a ∈ (initSdl p).log ++
        (if opened.isSome then [] else [.cerr ("Failed to load font ".toList ++ fontPath)]) ++
        diag, a.isTeardown = false := by
      intro a ha
      rw [hlog] at ha
      simp only [List.mem_append, List.mem_singleton] at ha
      rcases ha with (ha | ha) | ha
      · rw [ha]; rfl
      · cases opened <;> simp at ha
        rw [ha]; rfl
      · exact (hdiag a ha).1
    refine ⟨?_, ?_, ⟨_, tr, rfl, hpre⟩, ?_, ?_, ?_, ?_, ?_, fun _ => trivial⟩
    · rcases hpath with ⟨e, he, hc, _⟩ | ⟨hn, e, hs, hc, _⟩ | ⟨hn, hs, hc, _⟩
      · simp [hok, he, hc]
      · simp [hok, hn, hs, hc]
      · simp [hok, hn, hs, hc]
    · rcases hpath with ⟨e, he, hc, _⟩ | ⟨hn, e, hs, hc, _⟩ | ⟨hn, hs, hc, _⟩
      · simp [hok, he, hc]
      · simp [hok, hn, hs, hc]
      · simp [hok, hn, hs, hc]
    · rw [List.count_append, (shutdownSdl_log _ _ _).1]
      have hz : List.count Action.sdlQuit ((initSdl p).log ++
          (if opened.isSome then [] else [.cerr ("Failed to load font ".toList ++ fontPath)]) ++
          diag) = 0 := by
        rw [List.count_eq_zero]
        intro hmem
        have := hpre _ hmem
        simp [Action.isTeardown] at this
      rw [hz]
    · intro h; rw [hok] at h; exact Bool.noConfusion h
    · intro e _ he
      rcases hpath with ⟨e2, he2, _, hd⟩ | ⟨hn, _⟩ | ⟨hn, _⟩
      · rw [he] at he2
        cases he2
        simp [cerrLines_append, hd, cerrLines]
      · rw [hn] at he; exact Option.noConfusion he
      · rw [hn] at he; exact Option.noConfusion he
    · intro e _ _ hs
      rcases hpath with ⟨e2, he2, _⟩ | ⟨_, e2, hs2, _, hd⟩ | ⟨_, hs2, _⟩
      · rename_i hn _; rw [hn] at he2; exact Option.noConfusion he2
      · rw [hs] at hs2
        cases hs2
        simp [cerrLines_append, hd, cerrLines]
      · rw [hs] at hs2; exact Option.noConfusion hs2
    · rcases hpath with ⟨e, he, hc, _⟩ | ⟨hn, e, hs, hc, _⟩ | ⟨hn, hs, hc, _⟩ <;>
        rcases hpath2 with ⟨e2, he2, hc2, _⟩ | ⟨hn2, e2, hs2, hc2, _⟩ | ⟨hn2, hs2, hc2, _⟩ <;>
        simp_all

/-- C2 (as stated, refuted): bootstrap succeeds, the font loads, and the builder
passed to `runStep` under the name "Types" throws a `std::exception` with the
text "boom"; the only line on the error stream is "buildGameData failed: boom",
and "Types" does not occur in it. -/
theorem diagnostic_lacks_builder_name :
    (buildGameData (throwingAt .Types (.std "boom".toList)) ⟨0, []⟩).1.invoked = [.Types] ∧
    (buildGameData (throwingAt .Types (.std "boom".toList)) ⟨0, []⟩).2 =
      some (.std "boom".toList) ∧
    cerrLines (main healthyPlatform "assets/PKMN-RBYGSC.ttf".toList (some 3) 24
      (throwingAt .Types (.std "boom".toList)) 0 none).log =
        ["buildGameData failed: boom".toList] ∧
    containsText "Types".toList "buildGameData failed: boom".toList = false := by
  refine ⟨by decide, by decide, by decide, by decide⟩

/-- C2 (amended): when bootstrap succeeded and a builder is the first to throw,
the exception leaves `buildGameData` as thrown and the error stream gets (after
the font line, if the font did not load) one line: "buildGameData failed: "
followed by the exception's text, or "buildGameData failed: unknown error" for
an exception that is no `std::exception`; which builder threw has no part in
it. -/
theorem pipeline_diagnostic_message (p : Platform) (fontPath : Str) (opened : Option Handle)
    (lineSkip : Int) (impl : Builders σ) (r0 : σ) (session : Option Exn)
    (k : Nat) (b : BuilderId) (r : σ) (e : Exn)
    (hboot : (initSdl p).ok = true) (hb : declaredOrder[k]? = some b)
    (hpre : registriesAfter impl (declaredOrder.take k) r0 = .ok r)
    (hthrow : impl b r = .error e) :
    (buildGameData impl ⟨r0, []⟩).2 = some e ∧
    cerrLines (main p fontPath opened lineSkip impl r0 session).log =
      (if opened.isSome then [] else ["Failed to load font ".toList ++ fontPath]) ++
        [pipelineDiagnostic e] ∧
    (∀ m, e = .std m → pipelineDiagnostic e = "buildGameData failed: ".toList ++ m) ∧
    (e = .other → pipelineDiagnostic e = "buildGameData failed: unknown error".toList) := by
  have hbuilt : (buildGameData impl ⟨r0, []⟩).2 = some e := by
    rw [buildGameData_eq_callAll, callAll_throw impl declaredOrder k b r0 r e [] hb hpre hthrow]
  refine ⟨hbuilt, ?_, ?_, ?_⟩
  · obtain ⟨code, diag, tr, hmain, hpath⟩ :=
      main_booted p fontPath opened lineSkip impl r0 session hboot
    have hd : diag = [.cerr (pipelineDiagnostic e)] := by
      rcases hpath with ⟨e2, he2, _, hd⟩ | ⟨hn, _⟩ | ⟨hn, _⟩
      · rw [hbuilt] at he2
        cases he2
        exact hd
      · rw [hbuilt] at hn; exact Option.noConfusion hn
      · rw [hbuilt] at hn; exact Option.noConfusion hn
    rw [hmain]
    simp only [cerrLines_append, (shutdownSdl_log _ _ _).2.2, hd, List.append_nil]
    rcases initSdl_cases p with ⟨hok, _⟩ | ⟨_, w, r, _, _, hlog⟩
    · rw [hboot] at hok; exact Bool.noConfusion hok
    · rw [hlog]
      cases opened <;> simp [cerrLines]
  · intro m hm; rw [hm]; rfl
  · intro hm; rw [hm]; rfl

theorem pipeline_diagnostic_message_witness :
    (buildGameData (throwingAt .Npcs .other) ⟨0, []⟩).2 = some .other ∧
    cerrLines (main healthyPlatform "assets/PKMN-RBYGSC.ttf".toList none 0
        (throwingAt .Npcs .other) 0 none).log =
      ["Failed to load font assets/PKMN-RBYGSC.ttf".toList,
        "buildGameData failed: unknown error".toList] :=
  have h := pipeline_diagnostic_message healthyPlatform "assets/PKMN-RBYGSC.ttf".toList none 0
    (throwingAt .Npcs .other) 0 none 15 .Npcs 15 .other rfl (by decide) rfl rfl
  ⟨h.1, h.2.1⟩

/-- C10 (as stated, refuted): after a bootstrap on which every step succeeded
and with the font loaded, two teardown calls in a row pass the drawing context
to `SDL_DestroyRenderer` twice and the window to `SDL_DestroyWindow` twice. -/
theorem shutdownTwice_not_once :
    (initSdl healthyPlatform).ok = true ∧
    ¬ ((shutdownTwice (initSdl healthyPlatform).window (initSdl healthyPlatform).renderer
        (TextRenderer.init TextRenderer.initial (some 3) 24).2.1).2.2.count
          (.destroyRenderer 2) ≤ 1) ∧
    ¬ ((shutdownTwice (initSdl healthyPlatform).window (initSdl healthyPlatform).renderer
        (TextRenderer.init TextRenderer.initial (some 3) 24).2.1).2.2.count
          (.destroyWindow 1) ≤ 1) := by
  refine ⟨by decide, by decide, by decide⟩

/-- C10 (amended): for every window, drawing context and text-renderer state,
two teardown calls in a row close the font at most once and the text-renderer
state after the second call equals the state after the first (no font, line
height 0); the drawing context and the window, which `shutdownSdl` holds by
value and does not clear, are each passed to their destroy call once per call,
twice in all. -/
theorem shutdownTwice_font_once (w r : Handle) (tr : TextRenderer) :
    ((shutdownTwice (some w) (some r) tr).2.2.filter Action.isCloseFont).length ≤ 1 ∧
    (shutdownTwice (some w) (some r) tr).2.1 = (shutdownTwice (some w) (some r) tr).1 ∧
    (shutdownTwice (some w) (some r) tr).1 = ⟨none, 0⟩ ∧
    (shutdownTwice (some w) (some r) tr).2.2.count (.destroyRenderer r) = 2 ∧
    (shutdownTwice (some w) (some r) tr).2.2.count (.destroyWindow w) = 2 := by
  obtain ⟨f, h⟩ := tr
  cases f <;>
    simp [shutdownTwice, shutdownSdl, TextRenderer.shutdown, TextRenderer.cleanup,
      Action.isCloseFont, List.filter]

end Main

end PurpleSDL
